import Mathlib

/-!
Verification of the meme-creator pipeline (Python sources) against its
natural-language specification.

The Python code is shallow-embedded: dataclasses become structures, their
validating constructors (the Python dataclass post-init hooks, which raise
ValueError) become functions into Except String, Python floats are modelled
as exact rationals, Python str values are modelled as Lean String (or, where
character-level reasoning is needed, List Char), and the filesystem is an
explicit oracle parameter (a predicate telling which paths exist, and a size
map).
-/

set_option maxHeartbeats 1000000

namespace Meme

/-! ## Python string primitives -/

/-- Python str.lower, per character (config code only lowercases ASCII names). -/
def pyLower (s : String) : String :=
  ⟨s.data.map Char.toLower⟩

/-- Remove leading and trailing whitespace from a character list. -/
def trimList (l : List Char) : List Char :=
  ((l.dropWhile Char.isWhitespace).reverse.dropWhile Char.isWhitespace).reverse

/-- Python str.strip with no argument: remove leading and trailing whitespace. -/
def pyStrip (s : String) : String :=
  ⟨trimList s.data⟩

/-- Python s.replace(old, new) for single-character old and new. -/
def pyReplaceChar (s : String) (old new : Char) : String :=
  ⟨s.data.map (fun c => if c = old then new else c)⟩

/-- Python ":" in line (single-character membership). -/
def pyContainsChar (s : String) (c : Char) : Bool :=
  s.data.contains c

/-- Python line.split(sep, 1) for a single-character separator: the part
before the first occurrence and the part after it (the whole string and ""
when the separator does not occur). -/
def pySplit1 (s : String) (sep : Char) : String × String :=
  match s.data.splitOnP (· = sep) with
  | [] => (s, "")
  | first :: rest =>
    (⟨first⟩, ⟨(rest.intersperse [sep]).flatten⟩)

/-- Python pathlib join with "/" (PurePath.__truediv__ for relative parts). -/
def pathJoin (a b : String) : String :=
  a ++ "/" ++ b

/-- Python s.split(sep) for a single-character separator, all occurrences. -/
def pySplitChar (s : String) (sep : Char) : List String :=
  (s.data.splitOnP (· = sep)).map (fun l => (⟨l⟩ : String))

/-- Python Path(p).name: the final path component (text after the last "/"). -/
def pathName (p : String) : String :=
  match (pySplitChar p '/').getLast? with
  | some last => last
  | none => p

theorem pyLower_eq_empty_iff (s : String) : pyLower s = "" ↔ s = "" := by
  constructor
  · intro h
    have hdata : (pyLower s).data = ([] : List Char) := by rw [h]
    simp only [pyLower, List.map_eq_nil_iff] at hdata
    cases s
    simp_all
  · intro h
    subst h
    rfl

theorem pyStrip_empty : pyStrip "" = "" := rfl

theorem pyStrip_eq_empty_of_eq_empty {s : String} (h : s = "") : pyStrip s = "" := by
  subst h
  rfl

theorem string_mk_eq_empty_iff (l : List Char) : (⟨l⟩ : String) = "" ↔ l = [] := by
  constructor
  · intro h
    exact congrArg String.data h
  · intro h
    subst h
    rfl

theorem dropWhile_head_false {p : Char → Bool} :
    ∀ {l : List Char} {c : Char} {t : List Char},
      List.dropWhile p l = c :: t → p c = false := by
  intro l
  induction l with
  | nil => intro c t h; cases h
  | cons a l ih =>
    intro c t h
    rw [List.dropWhile_cons] at h
    split at h
    · exact ih h
    · cases h
      simp_all

theorem trimList_eq_nil_iff (l : List Char) :
    trimList l = [] ↔ ∀ c ∈ l, c.isWhitespace := by
  unfold trimList
  rw [List.reverse_eq_nil_iff, List.dropWhile_eq_nil_iff]
  constructor
  · intro h c hc
    rw [← List.takeWhile_append_dropWhile (p := Char.isWhitespace) (l := l),
      List.mem_append] at hc
    rcases hc with hc | hc
    · exact List.mem_takeWhile_imp hc
    · exact h c (List.mem_reverse.mpr hc)
  · intro h c hc
    apply h
    rw [List.mem_reverse] at hc
    have hcl : c ∈ l := by
      rw [← List.takeWhile_append_dropWhile (p := Char.isWhitespace) (l := l),
        List.mem_append]
      exact Or.inr hc
    exact hcl

theorem pyStrip_eq_empty_iff (s : String) :
    pyStrip s = "" ↔ ∀ c ∈ s.data, c.isWhitespace := by
  unfold pyStrip
  rw [string_mk_eq_empty_iff, trimList_eq_nil_iff]

theorem pyStrip_pyStrip_eq_empty_iff (s : String) :
    pyStrip (pyStrip s) = "" ↔ pyStrip s = "" := by
  rw [pyStrip_eq_empty_iff, pyStrip_eq_empty_iff]
  constructor
  · intro h
    have htrim : trimList s.data = [] := by
      unfold trimList
      cases hl2 : List.dropWhile Char.isWhitespace
          ((s.data.dropWhile Char.isWhitespace).reverse) with
      | nil => simp
      | cons c t =>
        exfalso
        have hfalse : c.isWhitespace = false := dropWhile_head_false hl2
        have hmem : c ∈ (pyStrip s).data := by
          show c ∈ trimList s.data
          unfold trimList
          rw [hl2, List.mem_reverse]
          exact List.mem_cons_self c t
        have htrue := h c hmem
        rw [hfalse] at htrue
        cases htrue
    exact (trimList_eq_nil_iff s.data).mp htrim
  · intro h c hc
    have htrim : trimList s.data = [] := (trimList_eq_nil_iff s.data).mpr h
    change c ∈ trimList s.data at hc
    rw [htrim] at hc
    cases hc

/-! ## Configuration domain model (src/config/domain/models.py)

Each Python dataclass with a `__post_init__` raising ValueError is embedded
as a plain structure together with a checked constructor into
`Except String`. -/

/-- Character dataclass of src/config/domain/models.py (fields only;
`tts_voice_profile_overrides : dict[str, str]` is modelled as an association
list). -/
structure Character where
  name : String
  speaking_style : String := ""
  conversational_role : String := ""
  image_path : String := ""
  tts_voice_clone : String := ""
  tts_voice_predefined : String := ""
  tts_voice_profile : String := ""
  tts_voice_profile_overrides : List (String × String) := []
  deriving Repr, DecidableEq

/-- Character.__post_init__ of src/config/domain/models.py: raises ValueError
when the stripped name is empty, otherwise stores all fields unchanged. -/
def Character.make (name : String) (speaking_style : String := "")
    (conversational_role : String := "") (image_path : String := "")
    (tts_voice_clone : String := "") (tts_voice_predefined : String := "")
    (tts_voice_profile : String := "")
    (tts_voice_profile_overrides : List (String × String) := []) :
    Except String Character :=
  if pyStrip name = "" then
    Except.error "Character name cannot be empty."
  else
    Except.ok
      { name := name
        speaking_style := speaking_style
        conversational_role := conversational_role
        image_path := image_path
        tts_voice_clone := tts_voice_clone
        tts_voice_predefined := tts_voice_predefined
        tts_voice_profile := tts_voice_profile
        tts_voice_profile_overrides := tts_voice_profile_overrides }

/-- Character dataclass of the top-level src/models.py (an older, simpler
variant that is also part of the repository). -/
structure ModelsCharacter where
  name : String
  speaking_style : String := ""
  role : String := ""
  deriving Repr, DecidableEq

/-- ModelsCharacter.__post_init__ of src/models.py: `if not self.name` —
raises ValueError exactly when the name is the empty string (a
whitespace-only name is truthy in Python and passes). -/
def ModelsCharacter.make (name : String) (speaking_style : String := "")
    (role : String := "") : Except String ModelsCharacter :=
  if name = "" then
    Except.error "Character name cannot be empty."
  else
    Except.ok { name := name, speaking_style := speaking_style, role := role }

/-- ChatterboxTTSConfig dataclass of src/config/domain/models.py. -/
structure ChatterboxTTSConfig where
  base_url : String
  endpoint : String := "/tts"
  timeout : Int := 120
  deriving Repr, DecidableEq

/-- ChatterboxTTSConfig.__post_init__: base_url must not strip to empty and
timeout must be positive; the Python field defaults are endpoint="/tts" and
timeout=120, reproduced here as default arguments. -/
def ChatterboxTTSConfig.make (base_url : String) (endpoint : String := "/tts")
    (timeout : Int := 120) : Except String ChatterboxTTSConfig :=
  if pyStrip base_url = "" then
    Except.error "Base URL cannot be empty"
  else if timeout ≤ 0 then
    Except.error "Timeout must be positive"
  else
    Except.ok { base_url := base_url, endpoint := endpoint, timeout := timeout }

/-- TTSConfig dataclass of src/config/domain/models.py (provider plus the
provider-specific chatterbox block). -/
structure TTSConfig where
  provider : String
  chatterbox : Option ChatterboxTTSConfig := none
  deriving Repr, DecidableEq

/-- MoviePyVideoConfig dataclass of src/config/domain/models.py. -/
structure MoviePyVideoConfig where
  quality : String := "medium"
  fps : Int := 30
  codec : String := "libx264"
  deriving Repr, DecidableEq

/-- VideoConfig dataclass of src/config/domain/models.py. -/
structure VideoConfig where
  provider : String
  background_video : String
  moviepy : Option MoviePyVideoConfig := none
  deriving Repr, DecidableEq

/-- VideoConfig.__post_init__, with the filesystem abstracted as the
predicate `fsExists`. Python checks, in order: provider is a non-empty
string; the background video path exists (`not self.background_video` is
always false on a Path object, so only the exists() call decides); the
provider is the supported "moviepy", filling in a default MoviePyVideoConfig
when none was given. -/
def VideoConfig.make (fsExists : String → Bool) (provider : String)
    (background_video : String) (moviepy : Option MoviePyVideoConfig := none) :
    Except String VideoConfig :=
  if pyStrip provider = "" then
    Except.error "Provider must be a non-empty string"
  else if fsExists background_video = false then
    Except.error ("Background video file does not exist: " ++ background_video)
  else if pyLower provider = "moviepy" then
    Except.ok
      { provider := provider
        background_video := background_video
        moviepy := some (moviepy.getD {}) }
  else
    Except.error ("Unsupported video provider: " ++ provider)

/-- ThinkingConfig dataclass of src/config/domain/models.py. -/
structure ThinkingConfig where
  include_thoughts : Bool := false
  thinking_budget : Int := 0
  deriving Repr, DecidableEq

/-- GeminiLLMConfig dataclass of src/config/domain/models.py. -/
structure GeminiLLMConfig where
  temperature : ℚ := 7/10
  max_output_tokens : Int := 1024
  model : String := "gemini-2.5-flash"
  direct_output : Bool := false
  thinking_config : ThinkingConfig := {}
  deriving Repr, DecidableEq

/-- LLMConfig dataclass of src/config/domain/models.py. -/
structure LLMConfig where
  provider : String
  gemini : Option GeminiLLMConfig := none
  api_key : String := ""
  deriving Repr, DecidableEq

/-- ScriptConfig dataclass of src/config/domain/models.py (prompt-template
fields included; the prompt builders themselves are not needed by any
claim). -/
structure ScriptConfig where
  overall_conversation_style : String
  main_topic : String
  scenario : String
  dialogue_length : String
  llm_config : LLMConfig
  characters : List Character := []
  system_prompt_extra : String := ""
  system_prompt_override : String := ""
  user_prompt_extra : String := ""
  user_prompt_override : String := ""
  deriving Repr, DecidableEq

/-- ProjectConfig dataclass of src/config/domain/models.py. -/
structure ProjectConfig where
  project_name : String
  base_output_dir : String
  character_config : Option (List Character) := none
  script_config : Option ScriptConfig := none
  tts_config : Option TTSConfig := none
  video_config : Option VideoConfig := none
  deriving Repr, DecidableEq

/-! ## Script domain model (src/script/domain/models.py) -/

/-- ScriptEntry dataclass of src/script/domain/models.py: one dialogue line
(character plus spoken content). -/
structure ScriptEntry where
  character : Character
  content : String
  deriving Repr, DecidableEq

/-- Script dataclass of src/script/domain/models.py: the ordered entries. -/
structure Script where
  entries : List ScriptEntry
  deriving Repr, DecidableEq

/-! ## TTS domain model

Modelled from the spec: the TTS, merge and video modules all do
`from tts.domain.models import AudioFile, AudioScript, OutputFormat`, but the
tts/domain/models.py present under src is an earlier abstract-interface
version that does not define these three names; their definitions are not
part of the sources provided. The spec describes the entity as
"AudioFile (path, duration, size, linked dialogue)"; the construction sites
(tts_file_service.py, merge_audio_script_use_case.py,
audio_script_repository.py) pass the keyword arguments path, script_entry,
character, dialogue, duration_seconds, file_size_bytes, and the consuming
code reads .path, .character, .dialogue, .script_entry, .duration_seconds
and .file_size_bytes. -/

/-- Modelled from the spec: the AudioFile record of tts.domain.models
("AudioFile (path, duration, size, linked dialogue)"), with the optional
backlink to the ScriptEntry it was synthesized from, as used by every
construction and consumption site under src. -/
structure AudioFile where
  path : String
  character : Character
  dialogue : String
  script_entry : Option ScriptEntry := none
  duration_seconds : Option ℚ := none
  file_size_bytes : Option Int := none
  deriving Repr, DecidableEq

/-- Modelled from the spec: the AudioScript record of tts.domain.models
("AudioScript: the collection of synthesized audio files with timing
metadata"). -/
structure AudioScript where
  audio_files : List AudioFile := []
  deriving Repr, DecidableEq

/-- Modelled from the spec: AudioScript.add_audio_file appends to the
ordered collection. -/
def AudioScript.add_audio_file (s : AudioScript) (f : AudioFile) : AudioScript :=
  { audio_files := s.audio_files ++ [f] }

/-- Modelled from the spec: AudioScript.total_duration_seconds, the summed
duration of the collected files (a missing duration counted as 0). -/
def AudioScript.total_duration_seconds (s : AudioScript) : ℚ :=
  (s.audio_files.map (fun f => f.duration_seconds.getD 0)).sum

/-- Modelled from the spec: the OutputFormat enum of tts.domain.models; the
member used throughout src is WAV (`OutputFormat.WAV`, value "wav", the
extension of every generated speech file), alongside the other audio
extensions the repository recognizes. -/
inductive OutputFormat where
  | wav
  | mp3
  | opus
  deriving Repr, DecidableEq

/-- The .value string of an OutputFormat member (the file extension). -/
def OutputFormat.value : OutputFormat → String
  | .wav => "wav"
  | .mp3 => "mp3"
  | .opus => "opus"

/-! ## Video domain model (src/video/domain/models.py) -/

/-- VideoFormat enum of src/video/domain/models.py. -/
inductive VideoFormat where
  | mp4
  | avi
  | mov
  deriving Repr, DecidableEq

/-- VideoQuality enum of src/video/domain/models.py. -/
inductive VideoQuality where
  | low
  | medium
  | high
  | ultra
  deriving Repr, DecidableEq

/-- VideoClip dataclass of src/video/domain/models.py. -/
structure VideoClip where
  path : String
  start_time : ℚ := 0
  duration : Option ℚ := none
  deriving Repr, DecidableEq

/-- VideoClip.__post_init__: the clip path must exist, start_time must be
non-negative, a given duration must be positive. -/
def VideoClip.make (fsExists : String → Bool) (path : String)
    (start_time : ℚ := 0) (duration : Option ℚ := none) :
    Except String VideoClip :=
  if fsExists path = false then
    Except.error ("Video file does not exist: " ++ path)
  else if start_time < 0 then
    Except.error "Start time cannot be negative"
  else if ∃ d, duration = some d ∧ d ≤ 0 then
    Except.error "Duration must be positive"
  else
    Except.ok { path := path, start_time := start_time, duration := duration }

/-- CharacterScene dataclass of src/video/domain/models.py. -/
structure CharacterScene where
  character : Character
  audio_file : AudioFile
  start_time : ℚ
  duration : ℚ
  character_image : Option String := none
  deriving Repr, DecidableEq

/-- VideoProject dataclass of src/video/domain/models.py. -/
structure VideoProject where
  background_clip : VideoClip
  character_scenes : List CharacterScene := []
  output_format : VideoFormat := .mp4
  quality : VideoQuality := .medium
  deriving Repr, DecidableEq

/-- VideoFile dataclass of src/video/domain/models.py. -/
structure VideoFile where
  path : String
  project : VideoProject
  file_size_bytes : Option Int := none
  render_time_seconds : Option ℚ := none
  deriving Repr, DecidableEq

/-- VideoFile.__post_init__: the rendered file path must exist, a given size
and render time must be non-negative. -/
def VideoFile.make (fsExists : String → Bool) (path : String)
    (project : VideoProject) (file_size_bytes : Option Int := none)
    (render_time_seconds : Option ℚ := none) : Except String VideoFile :=
  if fsExists path = false then
    Except.error ("Video file does not exist: " ++ path)
  else if ∃ n, file_size_bytes = some n ∧ n < 0 then
    Except.error "File size cannot be negative"
  else if ∃ r, render_time_seconds = some r ∧ r < 0 then
    Except.error "Render time cannot be negative"
  else
    Except.ok
      { path := path
        project := project
        file_size_bytes := file_size_bytes
        render_time_seconds := render_time_seconds }

/-! ## Claim C4: Character name validation -/

/-- The full claimed behaviour of the two Character constructors, amended to
what the code does: the config-domain constructor rejects exactly the names
that strip to empty, the top-level models constructor rejects exactly the
empty string, and both store an accepted name unchanged, so it is non-empty. -/
def characterValidationStatement (name ss cr ip vc vp vpr : String)
    (ov : List (String × String)) (role : String) : Prop :=
  ((Character.make name ss cr ip vc vp vpr ov).isOk = false ↔ pyStrip name = "")
  ∧ (∀ c, Character.make name ss cr ip vc vp vpr ov = Except.ok c →
      c.name = name ∧ pyStrip c.name ≠ "" ∧ c.name ≠ "")
  ∧ ((ModelsCharacter.make name ss role).isOk = false ↔ name = "")
  ∧ (∀ c, ModelsCharacter.make name ss role = Except.ok c →
      c.name = name ∧ c.name ≠ "")

/-- C4 (amended): constructing a config-domain Character raises ValueError
exactly when the name is empty or whitespace-only, and any other name is
stored unchanged; the Character of the top-level models module raises
exactly when the name is the empty string, so whitespace-only names pass
there; in both variants every constructed Character has a non-empty name. -/
theorem character_name_validation (name ss cr ip vc vp vpr : String)
    (ov : List (String × String)) (role : String) :
    characterValidationStatement name ss cr ip vc vp vpr ov role := by
  unfold characterValidationStatement
  refine ⟨?_, ?_, ?_, ?_⟩
  · unfold Character.make
    split <;> simp_all [Except.isOk, Except.toBool]
  · intro c hc
    unfold Character.make at hc
    split at hc
    · exact absurd hc (by simp)
    · rename_i hne
      cases hc
      refine ⟨rfl, hne, ?_⟩
      intro hname
      exact hne (pyStrip_eq_empty_of_eq_empty hname)
  · unfold ModelsCharacter.make
    split <;> simp_all [Except.isOk, Except.toBool]
  · intro c hc
    unfold ModelsCharacter.make at hc
    split at hc
    · exact absurd hc (by simp)
    · cases hc
      exact ⟨rfl, by assumption⟩

/-- C4 witness: the theorem applied at a concrete name. -/
theorem character_name_validation_witness :
    characterValidationStatement "Peter Griffin" "" "" "" "" "" "" [] "" :=
  character_name_validation "Peter Griffin" "" "" "" "" "" "" [] ""

/-- C4 counterexample: the claim as stated is false — a whitespace-only name
does not raise in the Character of src/models.py; its constructor accepts
" " (which strips to empty) and stores it unchanged. -/
theorem character_whitespace_name_counterexample :
    ModelsCharacter.make " " "" "" = Except.ok { name := " " }
    ∧ pyStrip " " = "" := by
  exact ⟨rfl, rfl⟩

/-! ## Claim C5: ChatterboxTTSConfig validation -/

/-- The claimed behaviour of the ChatterboxTTSConfig constructor: failure
exactly on a non-positive timeout or blank base_url, fields stored
unchanged, endpoint defaulting to "/tts" and timeout to 120. -/
def chatterboxConfigStatement (base_url endpoint : String) (timeout : Int) : Prop :=
  ((ChatterboxTTSConfig.make base_url endpoint timeout).isOk = false ↔
    timeout ≤ 0 ∨ pyStrip base_url = "")
  ∧ (∀ cfg, ChatterboxTTSConfig.make base_url endpoint timeout = Except.ok cfg →
      cfg.base_url = base_url ∧ cfg.endpoint = endpoint ∧ cfg.timeout = timeout)
  ∧ ChatterboxTTSConfig.make base_url = ChatterboxTTSConfig.make base_url "/tts" 120

/-- C5: constructing a ChatterboxTTSConfig raises ValueError iff the timeout
is not positive or the base_url is empty or whitespace-only; otherwise it
succeeds with the given fields, and the defaults are endpoint="/tts",
timeout=120. -/
theorem chatterbox_config_validation (base_url endpoint : String) (timeout : Int) :
    chatterboxConfigStatement base_url endpoint timeout := by
  unfold chatterboxConfigStatement ChatterboxTTSConfig.make
  refine ⟨?_, ?_, rfl⟩
  · split
    · simp_all [Except.isOk, Except.toBool]
    · split <;> simp_all [Except.isOk, Except.toBool]
  · intro cfg hcfg
    split at hcfg
    · exact absurd hcfg (by simp)
    · split at hcfg
      · exact absurd hcfg (by simp)
      · cases hcfg
        exact ⟨rfl, rfl, rfl⟩

/-- C5 witness: the theorem applied at a concrete configuration. -/
theorem chatterbox_config_validation_witness :
    chatterboxConfigStatement "http://localhost:8000" "/tts" 120 :=
  chatterbox_config_validation "http://localhost:8000" "/tts" 120

/-! ## Claim C6: media-file paths must exist at construction time -/

/-- The claimed behaviour of the three path-taking constructors: with any
filesystem, a missing path makes construction raise, and a successful
construction stores a path that exists. -/
def mediaPathStatement (fsExists : String → Bool) (provider path : String)
    (moviepy : Option MoviePyVideoConfig) (start_time : ℚ) (dur : Option ℚ)
    (project : VideoProject) (size : Option Int) (rt : Option ℚ) : Prop :=
  (fsExists path = false →
    (VideoConfig.make fsExists provider path moviepy).isOk = false
    ∧ (VideoClip.make fsExists path start_time dur).isOk = false
    ∧ (VideoFile.make fsExists path project size rt).isOk = false)
  ∧ (∀ c, VideoConfig.make fsExists provider path moviepy = Except.ok c →
      c.background_video = path ∧ fsExists c.background_video = true)
  ∧ (∀ c, VideoClip.make fsExists path start_time dur = Except.ok c →
      c.path = path ∧ fsExists c.path = true)
  ∧ (∀ f, VideoFile.make fsExists path project size rt = Except.ok f →
      f.path = path ∧ fsExists f.path = true)

/-- C6: VideoConfig (background_video), VideoClip (path) and VideoFile
(path) all raise ValueError when the given media path does not exist, and a
successfully constructed value always carries a path that existed at
construction time. -/
theorem media_path_must_exist (fsExists : String → Bool) (provider path : String)
    (moviepy : Option MoviePyVideoConfig) (start_time : ℚ) (dur : Option ℚ)
    (project : VideoProject) (size : Option Int) (rt : Option ℚ) :
    mediaPathStatement fsExists provider path moviepy start_time dur project size rt := by
  unfold mediaPathStatement
  refine ⟨?_, ?_, ?_, ?_⟩
  · intro hmiss
    refine ⟨?_, ?_, ?_⟩
    · unfold VideoConfig.make
      split
      · simp [Except.isOk, Except.toBool]
      · simp [hmiss, Except.isOk, Except.toBool]
    · unfold VideoClip.make
      simp [hmiss, Except.isOk, Except.toBool]
    · unfold VideoFile.make
      simp [hmiss, Except.isOk, Except.toBool]
  · intro c hc
    unfold VideoConfig.make at hc
    split at hc
    · exact absurd hc (by simp)
    · split at hc
      · exact absurd hc (by simp)
      · rename_i hex
        split at hc
        · cases hc
          simp_all
        · exact absurd hc (by simp)
  · intro c hc
    unfold VideoClip.make at hc
    split at hc
    · exact absurd hc (by simp)
    · rename_i hex
      split at hc
      · exact absurd hc (by simp)
      · split at hc
        · exact absurd hc (by simp)
        · cases hc
          simp_all
  · intro f hf
    unfold VideoFile.make at hf
    split at hf
    · exact absurd hf (by simp)
    · rename_i hex
      split at hf
      · exact absurd hf (by simp)
      · split at hf
        · exact absurd hf (by simp)
        · cases hf
          simp_all

/-- C6 witness: the theorem applied with a one-file filesystem, checking the
missing-path branch on a path that is absent from it. -/
theorem media_path_must_exist_witness :
    mediaPathStatement (fun p => p == "assets/background.mp4") "moviepy"
      "missing.mp4" none 0 none
      { background_clip := { path := "assets/background.mp4" } } none none :=
  media_path_must_exist (fun p => p == "assets/background.mp4") "moviepy"
    "missing.mp4" none 0 none
    { background_clip := { path := "assets/background.mp4" } } none none

/-! ## Decimal rendering and parsing of numbers

Python renders numbers into f-strings with format specs such as 03d, and
parses them back with int(). Both are embedded at the character-list level
so that round trips can be proved. -/

/-- The decimal digit character for a value below ten. -/
def digitChar : ℕ → Char
  | 0 => '0'
  | 1 => '1'
  | 2 => '2'
  | 3 => '3'
  | 4 => '4'
  | 5 => '5'
  | 6 => '6'
  | 7 => '7'
  | 8 => '8'
  | 9 => '9'
  | _ => '*'

/-- The numeric value of a digit character. -/
def digitVal (c : Char) : ℕ :=
  c.toNat - 48

/-- Decimal rendering of a natural number, most significant digit first
(what repr/str/format produce for a non-negative int). -/
def natDigits (n : ℕ) : List Char :=
  if _h : n < 10 then
    [digitChar n]
  else
    natDigits (n / 10) ++ [digitChar (n % 10)]
termination_by n
decreasing_by exact Nat.div_lt_self (by omega) (by omega)

/-- The value read off a list of digit characters, as int() computes it. -/
def digitsVal (l : List Char) : ℕ :=
  l.foldl (fun a c => 10 * a + digitVal c) 0

/-- Zero padding on the left up to a given width (the 0-fill of a format
spec for a non-negative number). -/
def zfill (w : ℕ) (l : List Char) : List Char :=
  List.replicate (w - l.length) '0' ++ l

/-- Python f-string formatting with spec 0{w}d: sign first, zeros counted
inside the width. -/
def pyFormat0d (w : ℕ) (i : Int) : List Char :=
  if i < 0 then
    '-' :: zfill (w - 1) (natDigits i.natAbs)
  else
    zfill w (natDigits i.natAbs)

theorem digitVal_digitChar {n : ℕ} (h : n < 10) : digitVal (digitChar n) = n := by
  interval_cases n <;> rfl

theorem digitChar_bounds {n : ℕ} (h : n < 10) :
    48 ≤ (digitChar n).toNat ∧ (digitChar n).toNat ≤ 57 := by
  interval_cases n <;> exact ⟨by decide, by decide⟩

theorem natDigits_ne_nil (n : ℕ) : natDigits n ≠ [] := by
  unfold natDigits
  split
  · simp
  · simp

theorem digitsVal_append_singleton (l : List Char) (c : Char) :
    digitsVal (l ++ [c]) = 10 * digitsVal l + digitVal c := by
  unfold digitsVal
  rw [List.foldl_append]
  rfl

theorem digitsVal_natDigits (n : ℕ) : digitsVal (natDigits n) = n := by
  induction n using Nat.strong_induction_on with
  | _ n ih =>
    unfold natDigits
    split
    · rename_i h
      simp [digitsVal, digitVal_digitChar h]
    · rename_i h
      rw [digitsVal_append_singleton,
        ih (n / 10) (Nat.div_lt_self (by omega) (by omega)),
        digitVal_digitChar (Nat.mod_lt n (by omega))]
      omega

theorem natDigits_bounds (n : ℕ) :
    ∀ c ∈ natDigits n, 48 ≤ c.toNat ∧ c.toNat ≤ 57 := by
  induction n using Nat.strong_induction_on with
  | _ n ih =>
    unfold natDigits
    split
    · rename_i h
      intro c hc
      simp only [List.mem_singleton] at hc
      subst hc
      exact digitChar_bounds h
    · rename_i h
      intro c hc
      rw [List.mem_append] at hc
      rcases hc with hc | hc
      · exact ih (n / 10) (Nat.div_lt_self (by omega) (by omega)) c hc
      · simp only [List.mem_singleton] at hc
        subst hc
        exact digitChar_bounds (Nat.mod_lt n (by omega))

theorem digitsVal_zfill (w : ℕ) (l : List Char) :
    digitsVal (zfill w l) = digitsVal l := by
  unfold zfill digitsVal
  rw [List.foldl_append]
  have hz : ∀ k, List.foldl (fun a c => 10 * a + digitVal c) 0
      (List.replicate k '0') = 0 := by
    intro k
    induction k with
    | zero => rfl
    | succ k ihk =>
      rw [List.replicate_succ, List.foldl_cons]
      simpa using ihk
  rw [hz]

theorem zfill_bounds (w : ℕ) (l : List Char)
    (h : ∀ c ∈ l, 48 ≤ c.toNat ∧ c.toNat ≤ 57) :
    ∀ c ∈ zfill w l, 48 ≤ c.toNat ∧ c.toNat ≤ 57 := by
  intro c hc
  rw [zfill, List.mem_append] at hc
  rcases hc with hc | hc
  · rw [List.eq_of_mem_replicate hc]
    exact ⟨by decide, by decide⟩
  · exact h c hc

theorem zfill_length (w : ℕ) (l : List Char) :
    (zfill w l).length = max w l.length := by
  simp [zfill]
  omega

theorem pyFormat0d_ofNat (w : ℕ) (n : ℕ) :
    pyFormat0d w (n : Int) = zfill w (natDigits n) := by
  unfold pyFormat0d
  rw [if_neg (by omega)]
  simp

/-! ## Claim C7: TTS filename generation
(src/tts/infrastructure/tts_file_service.py) -/

/-- TTSFileService.generate_filename: lowercase the character name, replace
spaces with underscores, optionally prefix the 03d-formatted index and an
underscore, and append a dot and the format extension. -/
def TTSFileService.generate_filename (character : Character)
    (index : Option Int := none) (output_format : OutputFormat := .wav) :
    String :=
  let character_name := pyReplaceChar (pyLower character.name) ' ' '_'
  match index with
  | some i => ⟨pyFormat0d 3 i⟩ ++ "_" ++ character_name ++ "." ++ output_format.value
  | none => character_name ++ "." ++ output_format.value

/-- The claimed filename scheme, with the index prefix verified
semantically: digits only, width exactly max(3, number of digits), and
reading the digits back yields the index. -/
def ttsFilenameStatement (c : Character) (i : ℕ) (fmt : OutputFormat) : Prop :=
  TTSFileService.generate_filename c (some (i : Int)) fmt
    = ⟨pyFormat0d 3 (i : Int)⟩ ++ "_"
      ++ pyReplaceChar (pyLower c.name) ' ' '_' ++ "." ++ fmt.value
  ∧ TTSFileService.generate_filename c none fmt
    = pyReplaceChar (pyLower c.name) ' ' '_' ++ "." ++ fmt.value
  ∧ pyFormat0d 3 (i : Int) = zfill 3 (natDigits i)
  ∧ (pyFormat0d 3 (i : Int)).length = max 3 (natDigits i).length
  ∧ digitsVal (pyFormat0d 3 (i : Int)) = i
  ∧ (∀ ch ∈ pyFormat0d 3 (i : Int), 48 ≤ ch.toNat ∧ ch.toNat ≤ 57)

/-- C7: generate_filename produces the lowercased, space-to-underscore name
followed by a dot and the format extension, and — when an index is supplied —
a prefix consisting of the decimal index zero-padded to three digits and an
underscore; the padded prefix is all digits and reads back as the index. -/
theorem tts_generate_filename_scheme (c : Character) (i : ℕ) (fmt : OutputFormat) :
    ttsFilenameStatement c i fmt := by
  refine ⟨rfl, rfl, pyFormat0d_ofNat 3 i, ?_, ?_, ?_⟩
  · rw [pyFormat0d_ofNat 3 i, zfill_length]
  · rw [pyFormat0d_ofNat 3 i, digitsVal_zfill, digitsVal_natDigits]
  · rw [pyFormat0d_ofNat 3 i]
    exact zfill_bounds 3 (natDigits i) (natDigits_bounds i)

/-- C7 witness: the theorem applied to a concrete character, index and
format ("001_peter_griffin.wav" style). -/
theorem tts_generate_filename_scheme_witness :
    ttsFilenameStatement { name := "Peter Griffin" } 1 OutputFormat.wav :=
  tts_generate_filename_scheme { name := "Peter Griffin" } 1 OutputFormat.wav

/-! ## Claim C1: the AudioFile record -/

/-- C1: AudioFile is a plain record holding the file path, the duration, the
size, and the dialogue it was synthesized from (with its character and an
optional ScriptEntry backlink); every AudioFile value is exactly its fields,
and the TTS, merge and video embeddings below construct and consume this
one type. -/
theorem audio_file_record_shape (a : AudioFile) :
    a = { path := a.path
          character := a.character
          dialogue := a.dialogue
          script_entry := a.script_entry
          duration_seconds := a.duration_seconds
          file_size_bytes := a.file_size_bytes } := rfl

/-! ## Claim C3: parsing a script string
(src/script/infrastructure/script_repository.py) -/

/-- ScriptRepository.validate_script_format, whose loop body appends an
error message for each line that is non-blank but has no colon; the counter
mirrors enumerate(..., 1). -/
def ScriptRepository.validateAux (i : ℕ) : List String → List String
  | [] => []
  | line :: rest =>
    if pyStrip line ≠ "" ∧ pyContainsChar line ':' = false then
      ("Line " ++ toString i ++ ": Missing colon - " ++ pyStrip line)
        :: ScriptRepository.validateAux (i + 1) rest
    else
      ScriptRepository.validateAux (i + 1) rest

/-- ScriptRepository.validate_script_format on the whole string. -/
def ScriptRepository.validate_script_format (script_str : String) : List String :=
  ScriptRepository.validateAux 1 (pySplitChar script_str '\n')

/-- The per-line loop body of ScriptRepository.parse_script_from_string:
skip colon-free lines; for the others, split at the first colon, look up the
first configured character whose lowercased name equals the lowercased
stripped name part (for/break/else in the source), and otherwise construct a
fresh Character from the stripped name part — which, like any Character
construction, can raise; a raised error propagates out of the loop. -/
def ScriptRepository.parseLinesAux (characters : List Character) :
    List String → Except String (List ScriptEntry)
  | [] => Except.ok []
  | line :: rest =>
    if pyContainsChar line ':' then
      match characters.find?
          (fun ch => pyLower ch.name == pyLower (pyStrip (pySplit1 line ':').1)) with
      | some character =>
        match ScriptRepository.parseLinesAux characters rest with
        | Except.error e => Except.error e
        | Except.ok entries =>
          Except.ok
            (ScriptEntry.mk character (pyStrip (pySplit1 line ':').2) :: entries)
      | none =>
        match Character.make (pyStrip (pySplit1 line ':').1) with
        | Except.error e => Except.error e
        | Except.ok character =>
          match ScriptRepository.parseLinesAux characters rest with
          | Except.error e => Except.error e
          | Except.ok entries =>
            Except.ok
              (ScriptEntry.mk character (pyStrip (pySplit1 line ':').2) :: entries)
    else
      ScriptRepository.parseLinesAux characters rest

/-- ScriptRepository.parse_script_from_string: validate first (ValueError on
any recorded message), then parse the colon-containing lines, then
ValueError when nothing was parsed. -/
def ScriptRepository.parse_script_from_string (script_str : String)
    (characters : List Character) : Except String Script :=
  if ScriptRepository.validate_script_format script_str ≠ [] then
    Except.error ("Invalid script format: " ++ String.intercalate ", "
      (ScriptRepository.validate_script_format script_str))
  else
    match ScriptRepository.parseLinesAux characters (pySplitChar script_str '\n') with
    | Except.error e => Except.error e
    | Except.ok script_entries =>
      if script_entries = [] then
        Except.error "No valid script entries found after parsing."
      else
        Except.ok ⟨script_entries⟩

/-- The entry the parser produces for one colon-containing line. -/
def ScriptRepository.entryOf (characters : List Character) (line : String) :
    ScriptEntry :=
  match characters.find?
      (fun ch => pyLower ch.name == pyLower (pyStrip (pySplit1 line ':').1)) with
  | some character => ScriptEntry.mk character (pyStrip (pySplit1 line ':').2)
  | none =>
    ScriptEntry.mk { name := pyStrip (pySplit1 line ':').1 }
      (pyStrip (pySplit1 line ':').2)

theorem validateAux_eq_nil_iff (i : ℕ) (lines : List String) :
    ScriptRepository.validateAux i lines = []
      ↔ ∀ l ∈ lines, ¬(pyStrip l ≠ "" ∧ pyContainsChar l ':' = false) := by
  induction lines generalizing i with
  | nil => simp [ScriptRepository.validateAux]
  | cons line rest ih =>
    rw [ScriptRepository.validateAux]
    split
    · rename_i hbad
      simp only [List.mem_cons]
      constructor
      · intro h
        cases h
      · intro h
        exact absurd hbad (h line (Or.inl rfl))
    · rename_i hgood
      rw [ih (i + 1)]
      simp only [List.mem_cons]
      constructor
      · intro h l hl
        rcases hl with hl | hl
        · subst hl
          exact hgood
        · exact h l hl
      · intro h l hl
        exact h l (Or.inr hl)

theorem find?_none_of_blank {characters : List Character}
    (hvalid : ∀ c ∈ characters, pyStrip c.name ≠ "") {np : String}
    (hnp : pyStrip np = "") :
    characters.find? (fun ch => pyLower ch.name == pyLower (pyStrip np)) = none := by
  rw [List.find?_eq_none]
  intro ch hch
  rw [hnp]
  intro habs
  rw [beq_iff_eq] at habs
  have hempty : pyLower ch.name = "" := by
    simpa [pyLower] using habs
  have hname : ch.name = "" := (pyLower_eq_empty_iff ch.name).mp hempty
  exact hvalid ch hch (pyStrip_eq_empty_of_eq_empty hname)

theorem parseLinesAux_error_iff {characters : List Character}
    (hvalid : ∀ c ∈ characters, pyStrip c.name ≠ "") (lines : List String) :
    (∃ e, ScriptRepository.parseLinesAux characters lines = Except.error e)
      ↔ ∃ l ∈ lines, pyContainsChar l ':' = true
          ∧ pyStrip (pySplit1 l ':').1 = "" := by
  induction lines with
  | nil => simp [ScriptRepository.parseLinesAux]
  | cons line rest ih =>
    rw [ScriptRepository.parseLinesAux]
    by_cases hcolon : pyContainsChar line ':' = true
    · rw [if_pos hcolon]
      rcases hfind : List.find?
          (fun ch => pyLower ch.name == pyLower (pyStrip (pySplit1 line ':').1))
          characters with _ | character
      · rw [hfind]
        by_cases hblank : pyStrip (pySplit1 line ':').1 = ""
        · have hmake : Character.make (pyStrip (pySplit1 line ':').1)
              = Except.error "Character name cannot be empty." := by
            unfold Character.make
            rw [if_pos ((pyStrip_pyStrip_eq_empty_iff _).mpr hblank)]
          rw [hmake]
          simp only [List.mem_cons]
          constructor
          · intro _
            exact ⟨line, Or.inl rfl, hcolon, hblank⟩
          · intro _
            exact ⟨"Character name cannot be empty.", rfl⟩
        · have hmake : Character.make (pyStrip (pySplit1 line ':').1)
              = Except.ok { name := pyStrip (pySplit1 line ':').1 } := by
            unfold Character.make
            rw [if_neg (fun h2 => hblank ((pyStrip_pyStrip_eq_empty_iff _).mp h2))]
          rw [hmake]
          rcases hrec : ScriptRepository.parseLinesAux characters rest with e2 | es
          · simp only [List.mem_cons]
            constructor
            · intro _
              rcases ih.mp ⟨e2, hrec⟩ with ⟨l, hl, hc, hb⟩
              exact ⟨l, Or.inr hl, hc, hb⟩
            · intro _
              exact ⟨e2, rfl⟩
          · simp only [List.mem_cons]
            constructor
            · intro h
              rcases h with ⟨e, he⟩
              cases he
            · intro h
              rcases h with ⟨l, hl, hc, hb⟩
              rcases hl with hl | hl
              · subst hl
                exact absurd hb hblank
              · rcases (ih.mpr ⟨l, hl, hc, hb⟩) with ⟨e, he⟩
                rw [he] at hrec
                cases hrec
      · rw [hfind]
        have hnp : ¬pyStrip (pySplit1 line ':').1 = "" := by
          intro hblank
          rw [find?_none_of_blank hvalid hblank] at hfind
          cases hfind
        rcases hrec : ScriptRepository.parseLinesAux characters rest with e2 | es
        · simp only [List.mem_cons]
          constructor
          · intro _
            rcases ih.mp ⟨e2, hrec⟩ with ⟨l, hl, hc, hb⟩
            exact ⟨l, Or.inr hl, hc, hb⟩
          · intro _
            exact ⟨e2, rfl⟩
        · simp only [List.mem_cons]
          constructor
          · intro h
            rcases h with ⟨e, he⟩
            cases he
          · intro h
            rcases h with ⟨l, hl, hc, hb⟩
            rcases hl with hl | hl
            · subst hl
              exact absurd hb hnp
            · rcases (ih.mpr ⟨l, hl, hc, hb⟩) with ⟨e, he⟩
              rw [he] at hrec
              cases hrec
    · rw [if_neg hcolon, ih]
      simp only [List.mem_cons]
      constructor
      · rintro ⟨l, hl, hc, hb⟩
        exact ⟨l, Or.inr hl, hc, hb⟩
      · rintro ⟨l, hl, hc, hb⟩
        rcases hl with hl | hl
        · subst hl
          exact absurd hc hcolon
        · exact ⟨l, hl, hc, hb⟩

theorem parseLinesAux_ok (characters : List Character) (lines : List String)
    (es : List ScriptEntry)
    (h : ScriptRepository.parseLinesAux characters lines = Except.ok es) :
    es = (lines.filter (fun l => pyContainsChar l ':')).map
      (ScriptRepository.entryOf characters) := by
  induction lines generalizing es with
  | nil =>
    cases h
    rfl
  | cons line rest ih =>
    rw [ScriptRepository.parseLinesAux] at h
    by_cases hcolon : pyContainsChar line ':' = true
    · rw [if_pos hcolon] at h
      rcases hfind : List.find?
          (fun ch => pyLower ch.name == pyLower (pyStrip (pySplit1 line ':').1))
          characters with _ | character
      all_goals rw [hfind] at h
      · rcases hmake : Character.make (pyStrip (pySplit1 line ':').1) with e | c
        all_goals rw [hmake] at h
        · cases h
        · rcases hrec : ScriptRepository.parseLinesAux characters rest with e | es2
          all_goals rw [hrec] at h
          · cases h
          · cases h
            have hc : c = { name := pyStrip (pySplit1 line ':').1 } := by
              unfold Character.make at hmake
              split at hmake
              · cases hmake
              · cases hmake
                rfl
            have hfil : List.filter (fun l => pyContainsChar l ':') (line :: rest)
                = line :: List.filter (fun l => pyContainsChar l ':') rest := by
              simp [List.filter_cons, hcolon]
            rw [hfil, List.map_cons, ← ih es2 hrec, hc]
            rw [ScriptRepository.entryOf, hfind]
      · rcases hrec : ScriptRepository.parseLinesAux characters rest with e | es2
        all_goals rw [hrec] at h
        · cases h
        · cases h
          have hfil : List.filter (fun l => pyContainsChar l ':') (line :: rest)
              = line :: List.filter (fun l => pyContainsChar l ':') rest := by
            simp [List.filter_cons, hcolon]
          rw [hfil, List.map_cons, ← ih es2 hrec]
          rw [ScriptRepository.entryOf, hfind]
    · rw [if_neg hcolon] at h
      have hfil : List.filter (fun l => pyContainsChar l ':') (line :: rest)
          = List.filter (fun l => pyContainsChar l ':') rest := by
        simp [List.filter_cons, hcolon]
      rw [hfil]
      exact ih es h

/-- The amended claimed behaviour of parse_script_from_string: it raises
exactly when some non-blank line lacks a colon, or no line has a colon, or
some colon line's name part strips to empty (and so the fresh-Character
construction raises); on success the entries are, in line order, one per
colon line, built by matching the stripped, lowercased name part against the
configured characters and stripping the content. -/
def parseScriptStatement (s : String) (characters : List Character) : Prop :=
  ((∃ e, ScriptRepository.parse_script_from_string s characters = Except.error e)
    ↔ (∃ l ∈ pySplitChar s '\n', pyStrip l ≠ "" ∧ pyContainsChar l ':' = false)
      ∨ (∀ l ∈ pySplitChar s '\n', pyContainsChar l ':' = false)
      ∨ (∃ l ∈ pySplitChar s '\n', pyContainsChar l ':' = true
          ∧ pyStrip (pySplit1 l ':').1 = ""))
  ∧ (∀ sc, ScriptRepository.parse_script_from_string s characters = Except.ok sc →
      sc.entries = ((pySplitChar s '\n').filter (fun l => pyContainsChar l ':')).map
        (ScriptRepository.entryOf characters))

/-- C3 (amended): for characters with valid (non-blank) names,
parse_script_from_string raises ValueError iff some non-blank line has no
colon, or no line has a colon, or some colon-containing line has a name part
that strips to the empty string; otherwise it returns one entry per
colon-containing line in order, the character being the first provided one
whose name equals the stripped name part case-insensitively (a fresh
Character with the stripped name part when none matches) and the content
being the text after the first colon, stripped. -/
theorem parse_script_from_string_characterization (s : String)
    (characters : List Character)
    (hvalid : ∀ c ∈ characters, pyStrip c.name ≠ "") :
    parseScriptStatement s characters := by
  unfold parseScriptStatement
  unfold ScriptRepository.parse_script_from_string
  by_cases hval : ScriptRepository.validate_script_format s = []
  · rw [if_neg (by simp [hval])]
    rcases hparse : ScriptRepository.parseLinesAux characters (pySplitChar s '\n')
        with e | es
    · constructor
      · constructor
        · intro _
          exact Or.inr (Or.inr
            ((parseLinesAux_error_iff hvalid (pySplitChar s '\n')).mp ⟨e, hparse⟩))
        · intro _
          exact ⟨e, rfl⟩
      · intro sc hsc
        cases hsc
    · have hes := parseLinesAux_ok characters (pySplitChar s '\n') es hparse
      dsimp only
      by_cases hnil : es = []
      · rw [if_pos hnil]
        constructor
        · constructor
          · intro _
            refine Or.inr (Or.inl ?_)
            intro l hl
            by_contra hcolon
            have hmem : ScriptRepository.entryOf characters l
                ∈ ((pySplitChar s '\n').filter (fun l => pyContainsChar l ':')).map
                  (ScriptRepository.entryOf characters) :=
              List.mem_map_of_mem _
                (List.mem_filter.mpr ⟨hl, by simpa using hcolon⟩)
            rw [← hes, hnil] at hmem
            cases hmem
          · intro _
            exact ⟨"No valid script entries found after parsing.", rfl⟩
        · intro sc hsc
          cases hsc
      · rw [if_neg hnil]
        constructor
        · constructor
          · rintro ⟨e, he⟩
            cases he
          · intro habs
            exfalso
            rcases habs with habs | habs | habs
            · rcases habs with ⟨l, hl, hb, hc⟩
              rw [ScriptRepository.validate_script_format,
                validateAux_eq_nil_iff] at hval
              exact hval l hl ⟨hb, hc⟩
            · apply hnil
              rw [hes]
              have hfilter : (pySplitChar s '\n').filter
                  (fun l => pyContainsChar l ':') = [] := by
                rw [List.filter_eq_nil_iff]
                intro l hl
                simp [habs l hl]
              rw [hfilter]
              rfl
            · rcases (parseLinesAux_error_iff hvalid (pySplitChar s '\n')).mpr habs
                with ⟨e, he⟩
              rw [he] at hparse
              cases hparse
        · intro sc hsc
          cases hsc
          exact hes
  · rw [if_pos (by simp [hval])]
    constructor
    · constructor
      · intro _
        refine Or.inl ?_
        by_contra hnone
        push_neg at hnone
        apply hval
        rw [ScriptRepository.validate_script_format, validateAux_eq_nil_iff]
        rintro l hl ⟨hb, hc⟩
        exact absurd hc (by simpa using hnone l hl hb)
      · intro _
        exact ⟨"Invalid script format: " ++ String.intercalate ", "
          (ScriptRepository.validate_script_format s), rfl⟩
    · intro sc hsc
      cases hsc

/-- C3 witness: the theorem applied to a concrete two-line script and one
configured character. -/
theorem parse_script_from_string_characterization_witness :
    (∀ c ∈ [Character.mk "Peter" "" "" "" "" "" "" []], pyStrip c.name ≠ "")
    ∧ parseScriptStatement "Peter: hello\nLois: hi"
        [Character.mk "Peter" "" "" "" "" "" "" []] :=
  ⟨by decide, parse_script_from_string_characterization
    "Peter: hello\nLois: hi" [Character.mk "Peter" "" "" "" "" "" "" []]
    (by decide)⟩

/-- C3 counterexample: the claim as stated is false — on the input ":hello"
(one line, containing a colon, with an empty name part) the parser raises
ValueError from the fresh-Character construction, although no non-empty line
lacks a colon and a line does contain a colon. -/
theorem parse_colon_blank_name_counterexample :
    ScriptRepository.parse_script_from_string ":hello" []
      = Except.error "Character name cannot be empty."
    ∧ (∀ l ∈ pySplitChar ":hello" '\n',
        ¬(pyStrip l ≠ "" ∧ pyContainsChar l ':' = false))
    ∧ (∃ l ∈ pySplitChar ":hello" '\n', pyContainsChar l ':' = true) := by
  refine ⟨rfl, by decide, by decide⟩

/-! ## Claim C2: the meme-creation pipeline
(src/application/entire_meme_creation_use_case.py)

MemeCreationUseCase.execute first validates the three required
configurations and then calls its collaborator use cases in source order.
The collaborators (script generation, speech synthesis, audio merge, video
composition, summary writing) perform LLM/TTS/ffmpeg/IO work, so they are
injected as possibly-failing functions; execute is instrumented to also
return the list of stage events in the order the stages were invoked. The
speech-synthesis collaborator class itself
(tts/application/generate_audio_script_from_script_entries_use_case.py) is
imported but not present under src, which is a second reason to abstract the
stages. -/

/-- The five pipeline stages, in the order the source invokes them. -/
inductive StageEvent where
  | scriptGen
  | speechSynth
  | audioMerge
  | videoComp
  | summaryWrite
  deriving Repr, DecidableEq

/-- Data-flow position of a stage. -/
def StageEvent.rank : StageEvent → ℕ
  | .scriptGen => 0
  | .speechSynth => 1
  | .audioMerge => 2
  | .videoComp => 3
  | .summaryWrite => 4

/-- The tail of MemeCreationUseCase.execute after the optional merge: video
composition (step 4), then the summary writer; events accumulate onto the
prefix recorded so far. -/
def MemeCreationUseCase.executeTail
    (videoStage : AudioScript → VideoConfig → String → Except String VideoFile)
    (summaryStage : String → List ScriptEntry → AudioScript → Option AudioFile →
      VideoFile → Except String Unit)
    (project_config : ProjectConfig) (video_config : VideoConfig)
    (script : Script) (audio_script : AudioScript)
    (merged_audio_file : Option AudioFile) (eventsSoFar : List StageEvent) :
    List StageEvent × Except String
      (List ScriptEntry × AudioScript × Option AudioFile × VideoFile) :=
  match videoStage audio_script video_config
      (pathJoin (pathJoin (pathJoin project_config.base_output_dir
          project_config.project_name) "videos")
        (project_config.project_name ++ "_meme.mp4")) with
  | Except.error e => (eventsSoFar ++ [StageEvent.videoComp], Except.error e)
  | Except.ok video_file =>
    match summaryStage
        (pathJoin (pathJoin project_config.base_output_dir
            project_config.project_name)
          (project_config.project_name ++ "_meme_summary.txt"))
        script.entries audio_script merged_audio_file video_file with
    | Except.error e =>
      (eventsSoFar ++ [StageEvent.videoComp, StageEvent.summaryWrite],
        Except.error e)
    | Except.ok _ =>
      (eventsSoFar ++ [StageEvent.videoComp, StageEvent.summaryWrite],
        Except.ok (script.entries, audio_script, merged_audio_file, video_file))

/-- MemeCreationUseCase.execute: validate the three configurations (raising
before any stage runs), then script generation into the scripts directory,
speech synthesis over the generated entries into the tts directory, the
optional audio merge (only when merge_audio is set and the audio script is
non-empty), video composition, and the summary file. -/
def MemeCreationUseCase.execute
    (scriptStage : ScriptConfig → String → Except String Script)
    (ttsStage : List ScriptEntry → TTSConfig → String → Except String AudioScript)
    (mergeStage : AudioScript → String → ℚ → Except String AudioFile)
    (videoStage : AudioScript → VideoConfig → String → Except String VideoFile)
    (summaryStage : String → List ScriptEntry → AudioScript → Option AudioFile →
      VideoFile → Except String Unit)
    (project_config : ProjectConfig) (merge_audio : Bool := true)
    (delay_between_files : ℚ := 0) :
    List StageEvent × Except String
      (List ScriptEntry × AudioScript × Option AudioFile × VideoFile) :=
  match project_config.script_config with
  | none => ([], Except.error "Script configuration is required")
  | some script_config =>
    match project_config.tts_config with
    | none => ([], Except.error "TTS configuration is required")
    | some tts_config =>
      match project_config.video_config with
      | none => ([], Except.error "Video configuration is required")
      | some video_config =>
        match scriptStage script_config
            (pathJoin (pathJoin project_config.base_output_dir
                project_config.project_name) "scripts") with
        | Except.error e => ([StageEvent.scriptGen], Except.error e)
        | Except.ok script =>
          match ttsStage script.entries tts_config
              (pathJoin (pathJoin project_config.base_output_dir
                  project_config.project_name) "tts") with
          | Except.error e =>
            ([StageEvent.scriptGen, StageEvent.speechSynth], Except.error e)
          | Except.ok audio_script =>
            if merge_audio && !audio_script.audio_files.isEmpty then
              match mergeStage audio_script
                  (pathJoin (pathJoin project_config.base_output_dir
                      project_config.project_name)
                    (project_config.project_name ++ "_merged.wav"))
                  delay_between_files with
              | Except.error e =>
                ([StageEvent.scriptGen, StageEvent.speechSynth,
                  StageEvent.audioMerge], Except.error e)
              | Except.ok merged_audio_file =>
                MemeCreationUseCase.executeTail videoStage summaryStage
                  project_config video_config script audio_script
                  (some merged_audio_file)
                  [StageEvent.scriptGen, StageEvent.speechSynth,
                    StageEvent.audioMerge]
            else
              MemeCreationUseCase.executeTail videoStage summaryStage
                project_config video_config script audio_script none
                [StageEvent.scriptGen, StageEvent.speechSynth]

/-- The claimed pipeline behaviour: a missing configuration raises before
any stage has run; a successful run records exactly the stage sequence
script generation, speech synthesis, audio merge only when requested and
non-trivial, video composition, summary writing, in that order, returning a
merged file exactly in the merge case; and on every outcome (any subset of
stage failures) the recorded events are strictly increasing in data-flow
rank, so no later stage ever runs before an earlier one. -/
def pipelineStatement
    (scriptStage : ScriptConfig → String → Except String Script)
    (ttsStage : List ScriptEntry → TTSConfig → String → Except String AudioScript)
    (mergeStage : AudioScript → String → ℚ → Except String AudioFile)
    (videoStage : AudioScript → VideoConfig → String → Except String VideoFile)
    (summaryStage : String → List ScriptEntry → AudioScript → Option AudioFile →
      VideoFile → Except String Unit)
    (project_config : ProjectConfig) (merge_audio : Bool)
    (delay_between_files : ℚ) : Prop :=
  ((project_config.script_config = none ∨ project_config.tts_config = none
      ∨ project_config.video_config = none) →
    (MemeCreationUseCase.execute scriptStage ttsStage mergeStage videoStage
        summaryStage project_config merge_audio delay_between_files).1 = []
    ∧ ∃ e, (MemeCreationUseCase.execute scriptStage ttsStage mergeStage
        videoStage summaryStage project_config merge_audio
        delay_between_files).2 = Except.error e)
  ∧ (∀ entries ascript merged vfile,
      (MemeCreationUseCase.execute scriptStage ttsStage mergeStage videoStage
          summaryStage project_config merge_audio delay_between_files).2
        = Except.ok (entries, ascript, merged, vfile) →
      (MemeCreationUseCase.execute scriptStage ttsStage mergeStage videoStage
          summaryStage project_config merge_audio delay_between_files).1
        = [StageEvent.scriptGen, StageEvent.speechSynth]
          ++ (if merge_audio && !ascript.audio_files.isEmpty then
              [StageEvent.audioMerge] else [])
          ++ [StageEvent.videoComp, StageEvent.summaryWrite]
      ∧ (merged.isSome = (merge_audio && !ascript.audio_files.isEmpty)))
  ∧ (MemeCreationUseCase.execute scriptStage ttsStage mergeStage videoStage
      summaryStage project_config merge_audio
      delay_between_files).1.Pairwise (fun a b => a.rank < b.rank)

/-- C2: for any stage implementations, a missing script/TTS/video
configuration raises ValueError with no stage run; otherwise the stages run
strictly in the order script generation, speech synthesis, optional audio
merge (exactly when merge_audio is set and an audio file exists), video
composition, summary writing; and whatever succeeds or fails, no later stage
ever runs before an earlier one. -/
theorem meme_creation_pipeline
    (scriptStage : ScriptConfig → String → Except String Script)
    (ttsStage : List ScriptEntry → TTSConfig → String → Except String AudioScript)
    (mergeStage : AudioScript → String → ℚ → Except String AudioFile)
    (videoStage : AudioScript → VideoConfig → String → Except String VideoFile)
    (summaryStage : String → List ScriptEntry → AudioScript → Option AudioFile →
      VideoFile → Except String Unit)
    (project_config : ProjectConfig) (merge_audio : Bool)
    (delay_between_files : ℚ) :
    pipelineStatement scriptStage ttsStage mergeStage videoStage summaryStage
      project_config merge_audio delay_between_files := by
  obtain ⟨pname, bdir, cc, sc, tc, vc⟩ := project_config
  unfold pipelineStatement
  unfold MemeCreationUseCase.execute
  dsimp only
  rcases sc with _ | script_config
  · dsimp only
    exact ⟨fun _ => ⟨rfl, ⟨_, rfl⟩⟩,
      fun a b c d h => Except.noConfusion h, List.Pairwise.nil⟩
  rcases tc with _ | tts_config
  · dsimp only
    exact ⟨fun _ => ⟨rfl, ⟨_, rfl⟩⟩,
      fun a b c d h => Except.noConfusion h, List.Pairwise.nil⟩
  rcases vc with _ | video_config
  · dsimp only
    exact ⟨fun _ => ⟨rfl, ⟨_, rfl⟩⟩,
      fun a b c d h => Except.noConfusion h, List.Pairwise.nil⟩
  dsimp only
  generalize scriptStage script_config
    (pathJoin (pathJoin bdir pname) "scripts") = sres
  rcases sres with e | script
  · dsimp only
    refine ⟨fun hmiss => ?_, fun a b c d h => Except.noConfusion h, by decide⟩
    rcases hmiss with h | h | h <;> cases h
  dsimp only
  generalize ttsStage script.entries tts_config
    (pathJoin (pathJoin bdir pname) "tts") = tres
  rcases tres with e | audio_script
  · dsimp only
    refine ⟨fun hmiss => ?_, fun a b c d h => Except.noConfusion h, by decide⟩
    rcases hmiss with h | h | h <;> cases h
  dsimp only
  by_cases hm : (merge_audio && !audio_script.audio_files.isEmpty) = true
  · rw [if_pos hm]
    generalize mergeStage audio_script
      (pathJoin (pathJoin bdir pname) (pname ++ "_merged.wav"))
      delay_between_files = mres
    rcases mres with e | merged0
    · dsimp only
      refine ⟨fun hmiss => ?_, fun a b c d h => Except.noConfusion h, by decide⟩
      rcases hmiss with h | h | h <;> cases h
    unfold MemeCreationUseCase.executeTail
    dsimp only
    generalize videoStage audio_script video_config
      (pathJoin (pathJoin (pathJoin bdir pname) "videos")
        (pname ++ "_meme.mp4")) = vres
    rcases vres with e | video_file
    · dsimp only
      refine ⟨fun hmiss => ?_, fun a b c d h => Except.noConfusion h, by decide⟩
      rcases hmiss with h | h | h <;> cases h
    dsimp only
    generalize summaryStage
      (pathJoin (pathJoin bdir pname) (pname ++ "_meme_summary.txt"))
      script.entries audio_script (some merged0) video_file = sumres
    rcases sumres with e | u
    · dsimp only
      refine ⟨fun hmiss => ?_, fun a b c d h => Except.noConfusion h, by decide⟩
      rcases hmiss with h | h | h <;> cases h
    dsimp only
    refine ⟨fun hmiss => ?_, ?_, by decide⟩
    · rcases hmiss with h | h | h <;> cases h
    intro entries ascript merged vfile h
    simp only [Except.ok.injEq, Prod.mk.injEq] at h
    obtain ⟨h1, h2, h3, h4⟩ := h
    subst h1
    subst h2
    subst h3
    subst h4
    constructor
    · simp [hm]
    · simp [hm]
  · rw [if_neg hm]
    unfold MemeCreationUseCase.executeTail
    dsimp only
    generalize videoStage audio_script video_config
      (pathJoin (pathJoin (pathJoin bdir pname) "videos")
        (pname ++ "_meme.mp4")) = vres
    rcases vres with e | video_file
    · dsimp only
      refine ⟨fun hmiss => ?_, fun a b c d h => Except.noConfusion h, by decide⟩
      rcases hmiss with h | h | h <;> cases h
    dsimp only
    generalize summaryStage
      (pathJoin (pathJoin bdir pname) (pname ++ "_meme_summary.txt"))
      script.entries audio_script none video_file = sumres
    rcases sumres with e | u
    · dsimp only
      refine ⟨fun hmiss => ?_, fun a b c d h => Except.noConfusion h, by decide⟩
      rcases hmiss with h | h | h <;> cases h
    dsimp only
    refine ⟨fun hmiss => ?_, ?_, by decide⟩
    · rcases hmiss with h | h | h <;> cases h
    intro entries ascript merged vfile h
    simp only [Except.ok.injEq, Prod.mk.injEq] at h
    obtain ⟨h1, h2, h3, h4⟩ := h
    subst h1
    subst h2
    subst h3
    subst h4
    constructor
    · simp [hm]
    · simp [hm]

/-- C2 witness: the theorem applied to concrete always-succeeding stages and
a complete concrete project configuration. -/
theorem meme_creation_pipeline_witness :
    pipelineStatement (fun _ _ => Except.ok ⟨[]⟩) (fun _ _ _ => Except.ok {})
      (fun _ _ _ => Except.ok
        { path := "m.wav", character := { name := "N" }, dialogue := "" })
      (fun _ _ _ => Except.ok
        { path := "v.mp4", project := { background_clip := { path := "bg.mp4" } } })
      (fun _ _ _ _ _ => Except.ok ())
      { project_name := "p", base_output_dir := "out"
        script_config := some
          { overall_conversation_style := "casual", main_topic := "t"
            scenario := "", dialogue_length := "5 lines"
            llm_config := { provider := "gemini" } }
        tts_config := some { provider := "chatterbox" }
        video_config := some { provider := "moviepy", background_video := "bg.mp4" } }
      true 0 :=
  meme_creation_pipeline _ _ _ _ _ _ true 0

/-! ## Claim C8: merging an audio script
(src/tts/application/merge_audio_script_use_case.py)

The ffmpeg invocation only concatenates files on disk; the resulting file's
size is read back from the filesystem, abstracted as the oracle pair
(fsExists, fsSize). -/

/-- MergeAudioScriptUseCase._calculate_total_duration: sum of the durations
(None counted as 0), plus one delay per gap when there are at least two
files. -/
def MergeAudioScriptUseCase.calculate_total_duration (audio_files : List AudioFile)
    (delay_between_files : ℚ) : ℚ :=
  (audio_files.map (fun f => f.duration_seconds.getD 0)).sum
    + (if audio_files.length > 1 then
        delay_between_files * (audio_files.length - 1 : ℕ) else 0)

/-- MergeAudioScriptUseCase._create_merged_dialogue: "name: dialogue" lines
joined with newlines. -/
def MergeAudioScriptUseCase.create_merged_dialogue (audio_files : List AudioFile) :
    String :=
  String.intercalate "\n"
    (audio_files.map (fun f => f.character.name ++ ": " ++ f.dialogue))

/-- MergeAudioScriptUseCase._get_representative_character: the first file's
character (raising on an empty list). -/
def MergeAudioScriptUseCase.get_representative_character
    (audio_files : List AudioFile) : Except String Character :=
  match audio_files with
  | [] => Except.error "No audio files provided"
  | f :: _ => Except.ok f.character

/-- MergeAudioScriptUseCase.execute: raise when the script holds no audio
files, otherwise shell out to ffmpeg (abstracted) and return the merged
AudioFile with the computed duration, the size read from disk (0 when the
output is missing), the merged dialogue and the representative character. -/
def MergeAudioScriptUseCase.execute (fsExists : String → Bool)
    (fsSize : String → Int) (audio_script : AudioScript) (output_path : String)
    (delay_between_files : ℚ := 0) : Except String AudioFile :=
  if audio_script.audio_files = [] then
    Except.error "AudioScript contains no audio files to merge"
  else
    match MergeAudioScriptUseCase.get_representative_character
        audio_script.audio_files with
    | Except.error e => Except.error e
    | Except.ok representative_character =>
      Except.ok
        { path := output_path
          character := representative_character
          dialogue := MergeAudioScriptUseCase.create_merged_dialogue
            audio_script.audio_files
          duration_seconds := some (MergeAudioScriptUseCase.calculate_total_duration
            audio_script.audio_files delay_between_files)
          file_size_bytes := some (if fsExists output_path then
            fsSize output_path else 0) }

/-- The claimed merge behaviour: error exactly on an empty audio list; for n
files the result's duration is the sum of durations (missing counted 0)
plus delay times (n - 1) for n > 1, and its path is the requested output
path. -/
def mergeStatement (fsExists : String → Bool) (fsSize : String → Int)
    (audio_script : AudioScript) (output_path : String)
    (delay_between_files : ℚ) : Prop :=
  ((MergeAudioScriptUseCase.execute fsExists fsSize audio_script output_path
      delay_between_files).isOk = false ↔ audio_script.audio_files = [])
  ∧ (∀ a, MergeAudioScriptUseCase.execute fsExists fsSize audio_script
      output_path delay_between_files = Except.ok a →
      a.path = output_path
      ∧ a.duration_seconds = some
          ((audio_script.audio_files.map (fun f => f.duration_seconds.getD 0)).sum
            + (if audio_script.audio_files.length > 1 then
                delay_between_files * (audio_script.audio_files.length - 1 : ℕ)
              else 0)))

/-- C8: MergeAudioScriptUseCase.execute raises ValueError exactly when the
audio script has no audio files; otherwise the merged AudioFile's
duration_seconds is the sum of the input durations (a missing duration
counted as 0) plus delay_between_files times (n - 1) when n > 1, and its
path is the requested output path. -/
theorem merge_audio_script_execute (fsExists : String → Bool)
    (fsSize : String → Int) (audio_script : AudioScript) (output_path : String)
    (delay_between_files : ℚ) :
    mergeStatement fsExists fsSize audio_script output_path delay_between_files := by
  unfold mergeStatement MergeAudioScriptUseCase.execute
  rcases hfiles : audio_script.audio_files with _ | ⟨f, rest⟩
  · rw [if_pos rfl]
    exact ⟨by simp [Except.isOk, Except.toBool], fun a ha => absurd ha (by simp)⟩
  · rw [if_neg (by simp)]
    unfold MergeAudioScriptUseCase.get_representative_character
    constructor
    · simp [Except.isOk, Except.toBool]
    · intro a ha
      rw [Except.ok.injEq] at ha
      subst ha
      exact ⟨rfl, rfl⟩

/-- C8 witness: the theorem applied to a two-file audio script with a
half-second gap; the duration formula instantiates to 3 + 5 + 1/2. -/
theorem merge_audio_script_execute_witness :
    mergeStatement (fun _ => true) (fun _ => 64000)
      { audio_files :=
          [{ path := "tts/001_a.wav", character := { name := "A" },
             dialogue := "hi", duration_seconds := some 3,
             file_size_bytes := some 10 },
           { path := "tts/002_b.wav", character := { name := "B" },
             dialogue := "yo", duration_seconds := none,
             file_size_bytes := some 20 },
           { path := "tts/003_a.wav", character := { name := "A" },
             dialogue := "bye", duration_seconds := some 5,
             file_size_bytes := none }] }
      "out/p_merged.wav" (1/2) :=
  merge_audio_script_execute (fun _ => true) (fun _ => 64000) _ _ _

/-! ## Claim C10: metadata timeline
(src/tts/infrastructure/audio_script_repository.py, save_audio_script_metadata) -/

/-- One audio_metadata block of the JSON document. -/
structure AudioMetadata where
  filename : String
  full_path : String
  duration_seconds : ℚ
  file_size_bytes : Int
  start_time : ℚ
  end_time : ℚ
  deriving Repr, DecidableEq

/-- One element of the JSON audio_files array: the serialized character and
dialogue plus the timing block. -/
structure FileData where
  character : Character
  dialogue : String
  audio_metadata : AudioMetadata
  deriving Repr, DecidableEq

/-- The whole JSON document written by save_audio_script_metadata. -/
structure MetadataDoc where
  total_duration_seconds : ℚ
  audio_files : List FileData
  deriving Repr, DecidableEq

/-- The loop of save_audio_script_metadata: current_start_time starts at 0
and advances by each file's duration (None counted as 0); each entry records
start_time and end_time = start_time + duration. -/
def AudioScriptRepository.metadataEntries (current_start_time : ℚ) :
    List AudioFile → List FileData
  | [] => []
  | audio_file :: rest =>
    { character := audio_file.character
      dialogue := audio_file.dialogue
      audio_metadata :=
        { filename := pathName audio_file.path
          full_path := audio_file.path
          duration_seconds := audio_file.duration_seconds.getD 0
          file_size_bytes := audio_file.file_size_bytes.getD 0
          start_time := current_start_time
          end_time := current_start_time + audio_file.duration_seconds.getD 0 } }
      :: AudioScriptRepository.metadataEntries
        (current_start_time + audio_file.duration_seconds.getD 0) rest

/-- AudioScriptRepository.save_audio_script_metadata, as the document it
writes. -/
def AudioScriptRepository.save_audio_script_metadata (audio_script : AudioScript) :
    MetadataDoc :=
  { total_duration_seconds := audio_script.total_duration_seconds
    audio_files := AudioScriptRepository.metadataEntries 0 audio_script.audio_files }

theorem metadataEntries_paths (t : ℚ) (files : List AudioFile) :
    (AudioScriptRepository.metadataEntries t files).map
      (fun d => d.audio_metadata.full_path) = files.map (fun f => f.path) := by
  induction files generalizing t with
  | nil => rfl
  | cons f rest ih =>
    rw [AudioScriptRepository.metadataEntries, List.map_cons, List.map_cons, ih]

theorem metadataEntries_start (t : ℚ) (files : List AudioFile) :
    ∀ h : files ≠ [],
      ((AudioScriptRepository.metadataEntries t files).head
        (by cases files with
          | nil => exact absurd rfl h
          | cons f rest => rw [AudioScriptRepository.metadataEntries]; simp)
        ).audio_metadata.start_time = t := by
  intro h
  cases files with
  | nil => exact absurd rfl h
  | cons f rest => rfl

theorem metadataEntries_end_eq (t : ℚ) (files : List AudioFile) :
    ∀ d ∈ AudioScriptRepository.metadataEntries t files,
      d.audio_metadata.end_time
        = d.audio_metadata.start_time + d.audio_metadata.duration_seconds := by
  induction files generalizing t with
  | nil => intro d hd; cases hd
  | cons f rest ih =>
    intro d hd
    rw [AudioScriptRepository.metadataEntries] at hd
    rcases List.mem_cons.mp hd with hd | hd
    · subst hd
      rfl
    · exact ih _ d hd

theorem metadataEntries_chain (t : ℚ) (files : List AudioFile) :
    List.Chain' (fun d d2 =>
        d2.audio_metadata.start_time = d.audio_metadata.end_time)
      (AudioScriptRepository.metadataEntries t files) := by
  induction files generalizing t with
  | nil => exact List.chain'_nil
  | cons f rest ih =>
    rw [AudioScriptRepository.metadataEntries]
    cases rest with
    | nil => simp [AudioScriptRepository.metadataEntries]
    | cons g rest2 =>
      rw [AudioScriptRepository.metadataEntries]
      refine List.Chain'.cons rfl ?_
      have := ih (t + f.duration_seconds.getD 0)
      rw [AudioScriptRepository.metadataEntries] at this
      exact this

/-- The claimed timeline invariants of the written metadata: the audio_files
array lists exactly the script's files in order; the first entry starts at
0; every entry's end_time is its start_time plus its (defaulted) duration;
and consecutive entries are contiguous. -/
def metadataTimelineStatement (audio_script : AudioScript) : Prop :=
  ((AudioScriptRepository.save_audio_script_metadata audio_script).audio_files.map
      (fun d => d.audio_metadata.full_path)
    = audio_script.audio_files.map (fun f => f.path))
  ∧ (∀ d, (AudioScriptRepository.save_audio_script_metadata
        audio_script).audio_files.head? = some d →
      d.audio_metadata.start_time = 0)
  ∧ (∀ d ∈ (AudioScriptRepository.save_audio_script_metadata
        audio_script).audio_files,
      d.audio_metadata.end_time
        = d.audio_metadata.start_time + d.audio_metadata.duration_seconds)
  ∧ List.Chain' (fun d d2 =>
      d2.audio_metadata.start_time = d.audio_metadata.end_time)
    (AudioScriptRepository.save_audio_script_metadata audio_script).audio_files

/-- C10: in the metadata produced by save_audio_script_metadata the
audio_files list preserves the script order, the first entry starts at time
0, each entry's end_time is its start_time plus its duration (missing
durations counted 0), and each subsequent entry starts where the previous
one ended — a contiguous, gapless timeline. -/
theorem metadata_timeline (audio_script : AudioScript) :
    metadataTimelineStatement audio_script := by
  unfold metadataTimelineStatement AudioScriptRepository.save_audio_script_metadata
  refine ⟨metadataEntries_paths 0 audio_script.audio_files, ?_,
    metadataEntries_end_eq 0 audio_script.audio_files,
    metadataEntries_chain 0 audio_script.audio_files⟩
  intro d hd
  cases hfiles : audio_script.audio_files with
  | nil =>
    rw [hfiles] at hd
    cases hd
  | cons f rest =>
    rw [hfiles] at hd
    rw [AudioScriptRepository.metadataEntries] at hd
    rw [List.head?_cons, Option.some.injEq] at hd
    subst hd
    rfl

/-- C10 witness: the theorem applied to a concrete three-file script. -/
theorem metadata_timeline_witness :
    metadataTimelineStatement
      { audio_files :=
          [{ path := "tts/001_a.wav", character := { name := "A" },
             dialogue := "hi", duration_seconds := some 2,
             file_size_bytes := some 10 },
           { path := "tts/002_b.wav", character := { name := "B" },
             dialogue := "yo", duration_seconds := none,
             file_size_bytes := none },
           { path := "tts/003_a.wav", character := { name := "A" },
             dialogue := "bye", duration_seconds := some (7/2),
             file_size_bytes := some 5 }] } :=
  metadata_timeline _

/-! ## Claim C9: SRT timestamp formatting and parsing
(src/tts/infrastructure/audio_script_repository.py)

The two functions move between a float number of seconds and the textual
HH:MM:SS,mmm form. Strings are handled at the character-list level here so
that the split/parse round trip can be proved; floats are exact rationals. -/

/-- Python s.split(sep) on a character list (all occurrences, keeping empty
parts, [""] for the empty string). -/
def splitOnChar (sep : Char) : List Char → List (List Char)
  | [] => [[]]
  | c :: rest =>
    if c = sep then
      [] :: splitOnChar sep rest
    else
      match splitOnChar sep rest with
      | [] => [[c]]
      | h :: t => (c :: h) :: t

/-- ASCII decimal digit test (what int() accepts per character). -/
def isDigitChar (c : Char) : Bool :=
  decide (48 ≤ c.toNat) && decide (c.toNat ≤ 57)

/-- Python int(s): strip whitespace, optional sign, then a non-empty run of
digits; anything else raises (None here). -/
def pyIntParse? (l : List Char) : Option Int :=
  match trimList l with
  | [] => none
  | c :: rest =>
    if c = '-' then
      if rest ≠ [] ∧ rest.all isDigitChar then
        some (-((digitsVal rest : ℕ) : Int))
      else none
    else if c = '+' then
      if rest ≠ [] ∧ rest.all isDigitChar then
        some ((digitsVal rest : ℕ) : Int)
      else none
    else
      if (c :: rest).all isDigitChar then
        some ((digitsVal (c :: rest) : ℕ) : Int)
      else none

theorem splitOnChar_ne_nil (sep : Char) (l : List Char) :
    splitOnChar sep l ≠ [] := by
  cases l with
  | nil => simp [splitOnChar]
  | cons c rest =>
    rw [splitOnChar]
    split
    · simp
    · cases splitOnChar sep rest <;> simp

theorem splitOnChar_no_sep (sep : Char) (l : List Char)
    (h : ∀ c ∈ l, c ≠ sep) : splitOnChar sep l = [l] := by
  induction l with
  | nil => rfl
  | cons c rest ih =>
    rw [splitOnChar, if_neg (h c (List.mem_cons_self c rest))]
    rw [ih (fun x hx => h x (List.mem_cons_of_mem c hx))]

theorem splitOnChar_append_sep (sep : Char) (A B : List Char)
    (h : ∀ c ∈ A, c ≠ sep) :
    splitOnChar sep (A ++ sep :: B) = A :: splitOnChar sep B := by
  induction A with
  | nil =>
    rw [List.nil_append, splitOnChar, if_pos rfl]
  | cons a A2 ih =>
    rw [List.cons_append, splitOnChar,
      if_neg (h a (List.mem_cons_self a A2)),
      ih (fun x hx => h x (List.mem_cons_of_mem a hx))]

theorem not_whitespace_of_digit_bounds {c : Char} (h48 : 33 ≤ c.toNat) :
    c.isWhitespace = false := by
  rcases hw : c.isWhitespace with _ | _
  · rfl
  · exfalso
    simp only [Char.isWhitespace, Bool.or_eq_true, decide_eq_true_eq] at hw
    rcases hw with ((h | h) | h) | h <;> (subst h; exact absurd h48 (by decide))

theorem dropWhile_eq_self_of_all {p : Char → Bool} {l : List Char}
    (h : ∀ c ∈ l, p c = false) : l.dropWhile p = l := by
  cases l with
  | nil => rfl
  | cons c rest =>
    rw [List.dropWhile_cons, if_neg (by simp [h c (List.mem_cons_self c rest)])]

theorem trimList_eq_self_of_no_ws {l : List Char}
    (h : ∀ c ∈ l, c.isWhitespace = false) : trimList l = l := by
  unfold trimList
  rw [dropWhile_eq_self_of_all h,
    dropWhile_eq_self_of_all (fun c hc => h c (List.mem_reverse.mp hc)),
    List.reverse_reverse]

theorem all_isDigitChar_of_bounds {l : List Char}
    (h : ∀ c ∈ l, 48 ≤ c.toNat ∧ c.toNat ≤ 57) : l.all isDigitChar = true := by
  rw [List.all_eq_true]
  intro c hc
  have := h c hc
  simp [isDigitChar, this.1, this.2]

theorem pyIntParse_digits {l : List Char} (hne : l ≠ [])
    (hdig : ∀ c ∈ l, 48 ≤ c.toNat ∧ c.toNat ≤ 57) :
    pyIntParse? l = some ((digitsVal l : ℕ) : Int) := by
  have htrim : trimList l = l :=
    trimList_eq_self_of_no_ws
      (fun c hc => not_whitespace_of_digit_bounds
        (le_trans (by omega) (hdig c hc).1))
  unfold pyIntParse?
  rw [htrim]
  cases l with
  | nil => exact absurd rfl hne
  | cons c rest =>
    have hc := hdig c (List.mem_cons_self c rest)
    dsimp only
    rw [if_neg ?hminus, if_neg ?hplus, if_pos (all_isDigitChar_of_bounds hdig)]
    case hminus =>
      intro habs
      subst habs
      exact absurd hc.1 (by decide)
    case hplus =>
      intro habs
      subst habs
      exact absurd hc.1 (by decide)

/-- Python int(x) truncation toward zero of a float, as a rational. -/
def pyInt (q : ℚ) : Int :=
  if q < 0 then -⌊-q⌋ else ⌊q⌋

/-- Python float floor division a // b. -/
def pyFloorDiv (a b : ℚ) : ℚ :=
  ((⌊a / b⌋ : ℤ) : ℚ)

/-- Python float modulo a % b (sign of b; used here only with b > 0). -/
def pyMod (a b : ℚ) : ℚ :=
  a - b * ((⌊a / b⌋ : ℤ) : ℚ)

/-- hours = int(seconds // 3600). -/
def srtH (q : ℚ) : Int := pyInt (pyFloorDiv q 3600)

/-- minutes = int((seconds % 3600) // 60). -/
def srtM (q : ℚ) : Int := pyInt (pyFloorDiv (pyMod q 3600) 60)

/-- secs = int(seconds % 60). -/
def srtS (q : ℚ) : Int := pyInt (pyMod q 60)

/-- milliseconds = int((seconds % 1) * 1000). -/
def srtMS (q : ℚ) : Int := pyInt (pyMod q 1 * 1000)

/-- AudioScriptRepository._format_srt_timestamp: the f-string
"{hours:02d}:{minutes:02d}:{secs:02d},{milliseconds:03d}" as characters. -/
def AudioScriptRepository.format_srt_timestamp (seconds : ℚ) : List Char :=
  pyFormat0d 2 (srtH seconds)
    ++ ':' :: (pyFormat0d 2 (srtM seconds)
      ++ ':' :: (pyFormat0d 2 (srtS seconds)
        ++ ',' :: pyFormat0d 3 (srtMS seconds)))

/-- AudioScriptRepository._parse_srt_timestamp: strip, split once on ",",
split the time part on ":" into exactly three ints, and combine; any
failure (wrong arity or a non-int part) is caught and yields 0.0. -/
def AudioScriptRepository.parse_srt_timestamp (timestamp : List Char) : ℚ :=
  match splitOnChar ',' (trimList timestamp) with
  | [time_part, ms_part] =>
    match splitOnChar ':' time_part with
    | [hpart, mpart, spart] =>
      match pyIntParse? hpart, pyIntParse? mpart, pyIntParse? spart,
          pyIntParse? ms_part with
      | some hours, some minutes, some seconds, some milliseconds =>
        (hours : ℚ) * 3600 + (minutes : ℚ) * 60 + (seconds : ℚ)
          + (milliseconds : ℚ) / 1000
      | _, _, _, _ => 0
    | _ => 0
  | _ => 0

theorem pyInt_of_nonneg {q : ℚ} (h : 0 ≤ q) : pyInt q = ⌊q⌋ :=
  if_neg (not_lt.mpr h)

theorem pyMod_nonneg (a : ℚ) {b : ℚ} (hb : 0 < b) : 0 ≤ pyMod a b := by
  have hx := Int.sub_floor_div_mul_nonneg a hb
  unfold pyMod
  rw [mul_comm]
  exact hx

theorem pyMod_lt (a : ℚ) {b : ℚ} (hb : 0 < b) : pyMod a b < b := by
  have hx := Int.sub_floor_div_mul_lt a hb
  unfold pyMod
  rw [mul_comm]
  exact hx

theorem srtH_eq {q : ℚ} (h : 0 ≤ q) : srtH q = ⌊q / 3600⌋ := by
  unfold srtH pyFloorDiv
  rw [pyInt_of_nonneg (by positivity), Int.floor_intCast]

theorem srtM_eq (q : ℚ) : srtM q = ⌊q / 60⌋ - 60 * ⌊q / 3600⌋ := by
  unfold srtM pyFloorDiv
  rw [pyInt_of_nonneg (by
    have := pyMod_nonneg q (show (0:ℚ) < 3600 by norm_num)
    positivity)]
  rw [Int.floor_intCast]
  have hdiv : pyMod q 3600 / 60 = q / 60 - ((60 * ⌊q / 3600⌋ : ℤ) : ℚ) := by
    unfold pyMod
    push_cast
    ring
  rw [hdiv, Int.floor_sub_int]

theorem srtS_eq (q : ℚ) : srtS q = ⌊q⌋ - 60 * ⌊q / 60⌋ := by
  unfold srtS
  rw [pyInt_of_nonneg (pyMod_nonneg q (by norm_num))]
  have hsub : pyMod q 60 = q - ((60 * ⌊q / 60⌋ : ℤ) : ℚ) := by
    unfold pyMod
    push_cast
    ring
  rw [hsub, Int.floor_sub_int]

theorem srtMS_eq (q : ℚ) : srtMS q = ⌊1000 * q⌋ - 1000 * ⌊q⌋ := by
  unfold srtMS
  rw [pyInt_of_nonneg (by
    have := pyMod_nonneg q (show (0:ℚ) < 1 by norm_num)
    positivity)]
  have hsub : pyMod q 1 * 1000 = 1000 * q - ((1000 * ⌊q⌋ : ℤ) : ℚ) := by
    unfold pyMod
    rw [div_one]
    push_cast
    ring
  rw [hsub, Int.floor_sub_int]

theorem srtH_nonneg {q : ℚ} (h : 0 ≤ q) : 0 ≤ srtH q := by
  rw [srtH_eq h]
  exact Int.floor_nonneg.mpr (by positivity)

theorem srtM_bounds (q : ℚ) : 0 ≤ srtM q ∧ srtM q < 60 := by
  have h0 : (0:ℚ) < 3600 := by norm_num
  have hlo := pyMod_nonneg q h0
  have hhi := pyMod_lt q h0
  unfold srtM pyFloorDiv
  rw [pyInt_of_nonneg (by positivity), Int.floor_intCast]
  constructor
  · exact Int.floor_nonneg.mpr (by positivity)
  · rw [Int.floor_lt]
    push_cast
    rw [div_lt_iff₀ (by norm_num : (0:ℚ) < 60)]
    linarith

theorem srtS_bounds (q : ℚ) : 0 ≤ srtS q ∧ srtS q < 60 := by
  have h0 : (0:ℚ) < 60 := by norm_num
  have hlo := pyMod_nonneg q h0
  have hhi := pyMod_lt q h0
  unfold srtS
  rw [pyInt_of_nonneg hlo]
  exact ⟨Int.floor_nonneg.mpr hlo, Int.floor_lt.mpr (by push_cast; linarith)⟩

theorem srtMS_bounds (q : ℚ) : 0 ≤ srtMS q ∧ srtMS q < 1000 := by
  have h0 : (0:ℚ) < 1 := by norm_num
  have hlo := pyMod_nonneg q h0
  have hhi := pyMod_lt q h0
  unfold srtMS
  rw [pyInt_of_nonneg (by positivity)]
  constructor
  · exact Int.floor_nonneg.mpr (by positivity)
  · rw [Int.floor_lt]
    push_cast
    linarith

theorem srt_components_sum {q : ℚ} (h : 0 ≤ q) :
    (srtH q * 3600 + srtM q * 60 + srtS q) * 1000 + srtMS q = ⌊1000 * q⌋ := by
  rw [srtH_eq h, srtM_eq q, srtS_eq q, srtMS_eq q]
  ring

theorem natDigits_length_lt_ten {n : ℕ} (h : n < 10) :
    (natDigits n).length = 1 := by
  unfold natDigits
  rw [dif_pos h]
  rfl

theorem natDigits_length_le_two {n : ℕ} (h : n < 100) :
    (natDigits n).length ≤ 2 := by
  unfold natDigits
  split
  · simp
  · rename_i hn
    rw [List.length_append, natDigits_length_lt_ten (show n / 10 < 10 by omega)]
    simp

theorem natDigits_length_le_three {n : ℕ} (h : n < 1000) :
    (natDigits n).length ≤ 3 := by
  unfold natDigits
  split
  · simp
  · rename_i hn
    rw [List.length_append]
    have := natDigits_length_le_two (show n / 10 < 100 by omega)
    simp
    omega

theorem zfill_ne_nil (w : ℕ) {l : List Char} (h : l ≠ []) : zfill w l ≠ [] := by
  unfold zfill
  simp [h]

theorem pyFormat0d_of_nonneg (w : ℕ) {i : Int} (hi : 0 ≤ i) :
    pyFormat0d w i = zfill w (natDigits i.natAbs) := by
  unfold pyFormat0d
  rw [if_neg (not_lt.mpr hi)]

theorem pyIntParse_pyFormat0d (w : ℕ) {i : Int} (hi : 0 ≤ i) :
    pyIntParse? (pyFormat0d w i) = some i := by
  rw [pyFormat0d_of_nonneg w hi]
  rw [pyIntParse_digits (zfill_ne_nil w (natDigits_ne_nil i.natAbs))
    (zfill_bounds w _ (natDigits_bounds i.natAbs))]
  rw [digitsVal_zfill, digitsVal_natDigits, Int.natAbs_of_nonneg hi]

theorem pyFormat0d_bounds (w : ℕ) {i : Int} (hi : 0 ≤ i) :
    ∀ c ∈ pyFormat0d w i, 48 ≤ c.toNat ∧ c.toNat ≤ 57 := by
  rw [pyFormat0d_of_nonneg w hi]
  exact zfill_bounds w _ (natDigits_bounds i.natAbs)

/-- The claimed behaviour of the SRT timestamp pair: parsing back a
formatted non-negative time yields the time truncated to whole milliseconds;
the formatted text is the four zero-padded components joined by ":", ":" and
",", with minutes and seconds below 60, milliseconds below 1000, and the
minute, second and millisecond fields exactly 2, 2 and 3 characters wide. -/
def srtTimestampStatement (q : ℚ) : Prop :=
  AudioScriptRepository.parse_srt_timestamp
      (AudioScriptRepository.format_srt_timestamp q)
    = ((⌊1000 * q⌋ : ℤ) : ℚ) / 1000
  ∧ AudioScriptRepository.format_srt_timestamp q
    = pyFormat0d 2 (srtH q)
        ++ ':' :: (pyFormat0d 2 (srtM q)
          ++ ':' :: (pyFormat0d 2 (srtS q)
            ++ ',' :: pyFormat0d 3 (srtMS q)))
  ∧ (0 ≤ srtM q ∧ srtM q < 60)
  ∧ (0 ≤ srtS q ∧ srtS q < 60)
  ∧ (0 ≤ srtMS q ∧ srtMS q < 1000)
  ∧ (pyFormat0d 2 (srtM q)).length = 2
  ∧ (pyFormat0d 2 (srtS q)).length = 2
  ∧ (pyFormat0d 3 (srtMS q)).length = 3

/-- C9: for every non-negative time t, _parse_srt_timestamp applied to
_format_srt_timestamp t yields t truncated to whole milliseconds, and the
formatted string has the HH:MM:SS,mmm shape with minutes and seconds below
60 and milliseconds below 1000. -/
theorem srt_timestamp_roundtrip (q : ℚ) (h : 0 ≤ q) : srtTimestampStatement q := by
  have hH : 0 ≤ srtH q := srtH_nonneg h
  have hM := srtM_bounds q
  have hS := srtS_bounds q
  have hMS := srtMS_bounds q
  have hAb := pyFormat0d_bounds 2 hH
  have hBb := pyFormat0d_bounds 2 hM.1
  have hCb := pyFormat0d_bounds 2 hS.1
  have hDb := pyFormat0d_bounds 3 hMS.1
  have hnocolon : ∀ {P : List Char},
      (∀ c ∈ P, 48 ≤ c.toNat ∧ c.toNat ≤ 57) → ∀ c ∈ P, c ≠ ':' := by
    intro P hP c hc habs
    subst habs
    exact absurd (hP _ hc).2 (by decide)
  have hnocomma : ∀ {P : List Char},
      (∀ c ∈ P, 48 ≤ c.toNat ∧ c.toNat ≤ 57) → ∀ c ∈ P, c ≠ ',' := by
    intro P hP c hc habs
    subst habs
    exact absurd (hP _ hc).1 (by decide)
  have htrim : trimList (AudioScriptRepository.format_srt_timestamp q)
      = AudioScriptRepository.format_srt_timestamp q := by
    apply trimList_eq_self_of_no_ws
    intro c hc
    unfold AudioScriptRepository.format_srt_timestamp at hc
    simp only [List.mem_append, List.mem_cons] at hc
    apply not_whitespace_of_digit_bounds
    rcases hc with hc | hc | hc | hc | hc | hc | hc
    · exact le_trans (by omega) (hAb c hc).1
    · subst hc
      decide
    · exact le_trans (by omega) (hBb c hc).1
    · subst hc
      decide
    · exact le_trans (by omega) (hCb c hc).1
    · subst hc
      decide
    · exact le_trans (by omega) (hDb c hc).1
  have hassoc : AudioScriptRepository.format_srt_timestamp q
      = (pyFormat0d 2 (srtH q) ++ ':' :: (pyFormat0d 2 (srtM q)
          ++ ':' :: pyFormat0d 2 (srtS q))) ++ ',' :: pyFormat0d 3 (srtMS q) := by
    unfold AudioScriptRepository.format_srt_timestamp
    simp [List.append_assoc]
  have hEnocomma : ∀ c ∈ pyFormat0d 2 (srtH q) ++ ':' :: (pyFormat0d 2 (srtM q)
      ++ ':' :: pyFormat0d 2 (srtS q)), c ≠ ',' := by
    intro c hc
    simp only [List.mem_append, List.mem_cons] at hc
    rcases hc with hc | hc | hc | hc | hc
    · exact hnocomma hAb c hc
    · subst hc
      decide
    · exact hnocomma hBb c hc
    · subst hc
      decide
    · exact hnocomma hCb c hc
  have hsplit1 : splitOnChar ','
      (AudioScriptRepository.format_srt_timestamp q)
      = [pyFormat0d 2 (srtH q) ++ ':' :: (pyFormat0d 2 (srtM q)
          ++ ':' :: pyFormat0d 2 (srtS q)), pyFormat0d 3 (srtMS q)] := by
    rw [hassoc, splitOnChar_append_sep ',' _ _ hEnocomma,
      splitOnChar_no_sep ',' _ (hnocomma hDb)]
  have hsplit2 : splitOnChar ':'
      (pyFormat0d 2 (srtH q) ++ ':' :: (pyFormat0d 2 (srtM q)
        ++ ':' :: pyFormat0d 2 (srtS q)))
      = [pyFormat0d 2 (srtH q), pyFormat0d 2 (srtM q), pyFormat0d 2 (srtS q)] := by
    rw [splitOnChar_append_sep ':' _ _ (hnocolon hAb),
      splitOnChar_append_sep ':' _ _ (hnocolon hBb),
      splitOnChar_no_sep ':' _ (hnocolon hCb)]
  refine ⟨?_, rfl, hM, hS, hMS, ?_, ?_, ?_⟩
  · unfold AudioScriptRepository.parse_srt_timestamp
    rw [htrim, hsplit1]
    dsimp only
    rw [hsplit2]
    dsimp only
    rw [pyIntParse_pyFormat0d 2 hH, pyIntParse_pyFormat0d 2 hM.1,
      pyIntParse_pyFormat0d 2 hS.1, pyIntParse_pyFormat0d 3 hMS.1]
    dsimp only
    have hz := srt_components_sum h
    calc (srtH q : ℚ) * 3600 + (srtM q : ℚ) * 60 + (srtS q : ℚ)
          + (srtMS q : ℚ) / 1000
        = (((srtH q * 3600 + srtM q * 60 + srtS q) * 1000 + srtMS q : ℤ) : ℚ)
            / 1000 := by
          push_cast
          ring
      _ = ((⌊1000 * q⌋ : ℤ) : ℚ) / 1000 := by rw [hz]
  · rw [pyFormat0d_of_nonneg 2 hM.1, zfill_length]
    have hlen : (natDigits (srtM q).natAbs).length ≤ 2 :=
      natDigits_length_le_two (by omega)
    omega
  · rw [pyFormat0d_of_nonneg 2 hS.1, zfill_length]
    have hlen : (natDigits (srtS q).natAbs).length ≤ 2 :=
      natDigits_length_le_two (by omega)
    omega
  · rw [pyFormat0d_of_nonneg 3 hMS.1, zfill_length]
    have hlen : (natDigits (srtMS q).natAbs).length ≤ 3 :=
      natDigits_length_le_three (by omega)
    omega

/-- C9 witness: the theorem applied at t = 3661.5 seconds
(formatted 01:01:01,500). -/
theorem srt_timestamp_roundtrip_witness :
    0 ≤ (7323 / 2 : ℚ) ∧ srtTimestampStatement (7323 / 2) :=
  ⟨by norm_num, srt_timestamp_roundtrip (7323 / 2) (by norm_num)⟩

end Meme
